import Mathlib

/-!
# rtexport: the request/parse pipeline of `GetRecords`

A shallow embedding of `src/rtexport.go`.

* Go values of type `interface{}` produced by `encoding/json` are the
  inductive `JSONValue`.
* A `float64` coming out of a JSON number is finite; it is kept as a sign, a
  natural mantissa and a binary exponent (`Float64`), so that the conversions
  `int(x)` and `int8(x)` are exact integer arithmetic.
* The libraries the function calls into (the HTTP transport, the body reader,
  the JSON decoder, the `%v` formatter, and the implementation-dependent result
  of an out-of-range float conversion) are the fields of `Runtime` and `Body`.
* `time.Parse` is modelled for the one layout the program uses.
* A run of `GetRecords` ends in an `Outcome`: either the pair the function
  returns, or a run-time panic. A nil slice of records is the empty list.
* The deferred `resp.Body.Close()` does not bear on what is returned and is
  left out.
-/

namespace Rtexport

/-! ## Floating point numbers and their conversion to integers -/

/-- A finite `float64`: the number `(-1)^neg * mant * 2^exp`. -/
structure Float64 where
  neg : Bool
  mant : Nat
  exp : Int
  deriving DecidableEq, Repr

namespace Float64

/-- The integer part of a float: the fraction is discarded (truncation toward zero). -/
def trunc (f : Float64) : Int :=
  let m : Nat :=
    if 0 ≤ f.exp then f.mant * 2 ^ f.exp.toNat else f.mant / 2 ^ (-f.exp).toNat
  if f.neg then -(m : Int) else (m : Int)

/-- The float whose value is the integer `n`. -/
def ofInt (n : Int) : Float64 := ⟨decide (n < 0), n.natAbs, 0⟩

end Float64

/-- Two's complement reduction of an integer to `w` bits. -/
def wrapInt (w : Nat) (x : Int) : Int :=
  (x + 2 ^ (w - 1)) % 2 ^ w - 2 ^ (w - 1)

/-- Whether `x` is a value of the signed `w`-bit integer type. -/
def fitsInt (w : Nat) (x : Int) : Prop :=
  -(2 ^ (w - 1) : Int) ≤ x ∧ x < 2 ^ (w - 1)

instance (w : Nat) (x : Int) : Decidable (fitsInt w x) := by
  unfold fitsInt; infer_instance

/-! ## JSON values, records, errors -/

/-- What `encoding/json` stores in an `interface{}`: `nil`, `bool`, `float64`,
`string`, `[]interface{}` or `map[string]interface{}`. -/
inductive JSONValue where
  | null : JSONValue
  | bool (b : Bool) : JSONValue
  | num (f : Float64) : JSONValue
  | str (s : String) : JSONValue
  | arr (xs : List JSONValue) : JSONValue
  | obj (kvs : List (String × JSONValue)) : JSONValue

/-- The text `%v` prints for `reflect.TypeOf(v)`. -/
def typeName : JSONValue → String
  | .null => "<nil>"
  | .bool _ => "bool"
  | .num _ => "float64"
  | .str _ => "string"
  | .arr _ => "[]interface {}"
  | .obj _ => "map[string]interface {}"

/-- A `time.Time` built by `time.Date(Year, Month, Day, Hour, Minute, Second,
Nanosecond, time.UTC)` from fields that are all in range. -/
structure Time where
  Year : Nat
  Month : Nat
  Day : Nat
  Hour : Nat
  Minute : Nat
  Second : Nat
  Nanosecond : Nat
  deriving DecidableEq, Repr

/-- Record of usage information every five minutes. -/
structure Record where
  Begin : Time
  Spent : Int
  Activity : String
  Category : String
  Productivity : Int
  deriving DecidableEq, Repr

/-- The JSON envelope; `notes` and `row_headers` are kept as raw text. -/
structure rtResponse where
  Notes : String
  RowHeaders : String
  Rows : List (List JSONValue)

abbrev Bytes := List Nat

/-- The places where `time.Parse` gives up, with the layout element and the
rest of the value it reports. -/
inductive ParseError where
  | cannotParse (layoutElem : String) (valueElem : Bytes)
  | outOfRange (what : String) (layoutElem : String) (valueElem : Bytes)
  | extraText (valueElem : Bytes)
  | dayOutOfRange
  deriving DecidableEq, Repr

/-- Go `error` values. -/
inductive GoError where
  /-- the error of `errors.New` and `fmt.Errorf`, known by its message -/
  | errorString (msg : String)
  /-- a `*time.ParseError` -/
  | parseError (e : ParseError)
  /-- an error made by `net/http`, `io` or `encoding/json` -/
  | external (msg : String)
  deriving DecidableEq, Repr

/-- How a call ends: it returns `(records, err)`, or it panics. -/
inductive Outcome where
  | returned (records : List Record) (err : Option GoError)
  | panicked (msg : String)
  deriving DecidableEq, Repr

/-! ## `time.Parse` for the layout `2006-01-02T15:04:05` -/

/-- UTF-8 encoding of one character. -/
def utf8Char (c : Char) : Bytes :=
  let v := c.toNat
  if v < 0x80 then [v]
  else if v < 0x800 then [0xC0 + v / 0x40, 0x80 + v % 0x40]
  else if v < 0x10000 then [0xE0 + v / 0x1000, 0x80 + v / 0x40 % 0x40, 0x80 + v % 0x40]
  else [0xF0 + v / 0x40000, 0x80 + v / 0x1000 % 0x40, 0x80 + v / 0x40 % 0x40, 0x80 + v % 0x40]

/-- The bytes of a Go string. -/
def goBytes (s : String) : Bytes :=
  s.toList.foldr (fun c acc => utf8Char c ++ acc) []

/-- Whether byte `i` of `s` is a decimal digit (`time.isDigit`). -/
def isDigit (s : Bytes) (i : Nat) : Bool :=
  match s.get? i with
  | some c => decide (48 ≤ c) && decide (c ≤ 57)
  | none => false

/-- Decimal value of a run of digit bytes, most significant first. -/
def digitsVal (s : Bytes) : Nat :=
  s.foldl (fun x c => x * 10 + (c - 48)) 0

/-- The function `time.atoi` on a text without sign: every byte has to be a digit. -/
def atoi (s : Bytes) : Option Nat :=
  if s.all (fun c => decide (48 ≤ c) && decide (c ≤ 57)) then some (digitsVal s) else none

/-- The function `time.getnum`: one or two leading digits (exactly two when `fixed`). -/
def getnum (s : Bytes) (fixed : Bool) : Option (Nat × Bytes) :=
  if !isDigit s 0 then none
  else if !isDigit s 1 then
    if fixed then none else some (digitsVal (s.take 1), s.drop 1)
  else some (digitsVal (s.take 2), s.drop 2)

/-- The function `time.skip` for a one-byte prefix other than a space. -/
def skip (value : Bytes) (prefixByte : Nat) : Option Bytes :=
  match value with
  | [] => none
  | c :: rest => if c ≠ prefixByte then none else some rest

def isLeap (year : Nat) : Bool :=
  year % 4 == 0 && (year % 100 != 0 || year % 400 == 0)

/-- Number of days of a month (`time.daysIn`). -/
def daysIn (month year : Nat) : Nat :=
  if month == 2 && isLeap year then 29
  else match month with
    | 1 => 31 | 2 => 28 | 3 => 31 | 4 => 30 | 5 => 31 | 6 => 30
    | 7 => 31 | 8 => 31 | 9 => 30 | 10 => 31 | 11 => 30 | 12 => 31
    | _ => 0

/-- Number of leading digit bytes of `s`. -/
def countDigits : Bytes → Nat
  | [] => 0
  | c :: rest => if 48 ≤ c ∧ c ≤ 57 then countDigits rest + 1 else 0

/-- A fractional second in the value although the layout has none: `value`
starts with a period or a comma and a digit. Gives the nanoseconds and the
rest (`parseNanoseconds`, at most nine digits are kept). -/
def fractionalSecond (value : Bytes) : Nat × Bytes :=
  let n := 1 + countDigits (value.drop 1)
  let nbytes := if n > 10 then 10 else n
  let ns := digitsVal ((value.take nbytes).drop 1)
  (ns * 10 ^ (10 - nbytes), value.drop n)

/-- The call `time.Parse("2006-01-02T15:04:05", v)`. The layout is the chunks
`2006`, `-`, `01`, `-`, `02`, `T`, `15`, `:`, `04`, `:`, `05`; the result is in UTC. -/
def timeParse (v : String) : Except ParseError Time :=
  let value := goBytes v
  -- stdLongYear
  if value.length < 4 || !isDigit value 0 then .error (.cannotParse "2006" value) else
  match atoi (value.take 4) with
  | none => .error (.cannotParse "2006" value)
  | some year =>
  let value := value.drop 4
  match skip value 45 with
  | none => .error (.cannotParse "-" value)
  | some value =>
  -- stdZeroMonth
  match getnum value true with
  | none => .error (.cannotParse "01" value)
  | some (month, value) =>
  if month ≤ 0 || 12 < month then .error (.outOfRange "month" "01" value) else
  match skip value 45 with
  | none => .error (.cannotParse "-" value)
  | some value =>
  -- stdZeroDay, validated at the end
  match getnum value true with
  | none => .error (.cannotParse "02" value)
  | some (day, value) =>
  match skip value 84 with
  | none => .error (.cannotParse "T" value)
  | some value =>
  -- stdHour
  match getnum value false with
  | none => .error (.cannotParse "15" value)
  | some (hour, value) =>
  if 24 ≤ hour then .error (.outOfRange "hour" "15" value) else
  match skip value 58 with
  | none => .error (.cannotParse ":" value)
  | some value =>
  -- stdZeroMinute
  match getnum value true with
  | none => .error (.cannotParse "04" value)
  | some (min, value) =>
  if 60 ≤ min then .error (.outOfRange "minute" "04" value) else
  match skip value 58 with
  | none => .error (.cannotParse ":" value)
  | some value =>
  -- stdZeroSecond
  match getnum value true with
  | none => .error (.cannotParse "05" value)
  | some (sec, value) =>
  if 60 ≤ sec then .error (.outOfRange "second" "05" value) else
  let frac : Nat × Bytes :=
    if value.length ≥ 2 && (value.get? 0 == some 46 || value.get? 0 == some 44)
        && isDigit value 1 then
      fractionalSecond value
    else (0, value)
  let nsec := frac.1
  let value := frac.2
  if value.length ≠ 0 then .error (.extraText value) else
  if day < 1 || day > daysIn month year then .error .dayOutOfRange else
  .ok ⟨year, month, day, hour, min, sec, nsec⟩

/-! ## The libraries behind `GetRecords` -/

/-- A response body, given by what each of the two readers the program may
apply to it yields: `ioutil.ReadAll(Body)` and
`json.NewDecoder(Body).Decode(&respMsg)`. -/
structure Body where
  readAll : Except GoError String
  decode : Except GoError rtResponse

/-- The part of `http.Response` the program looks at. -/
structure Response where
  StatusCode : Int
  Body : Body

/-- One second as a `time.Duration` (nanoseconds). -/
def Second : Int := 1000000000

/-- The settings of the `http.Client` the program builds. -/
structure Client where
  DialTimeout : Int
  TLSHandshakeTimeout : Int
  Timeout : Int
  deriving DecidableEq, Repr

/-- What the program takes from its platform and its libraries.
`intBits` is the width of Go's `int`; `oorInt` and `oorInt8` are the
implementation-dependent results of `int(x)` and `int8(x)` for a float whose
integer part the target type cannot represent; `fmtV` is the text the verb
`%v` prints for a decoded JSON value; `clientGet` is `(*http.Client).Get`. -/
structure Runtime where
  intBits : Nat
  intBits_ok : intBits = 32 ∨ intBits = 64
  oorInt : Float64 → Int
  oorInt8 : Float64 → Int
  fmtV : JSONValue → String
  clientGet : Client → String → Except GoError Response

/-- The conversion `int(f)` of a `float64`. -/
def float64ToInt (rt : Runtime) (f : Float64) : Int :=
  if fitsInt rt.intBits f.trunc then f.trunc else wrapInt rt.intBits (rt.oorInt f)

/-- The conversion `int8(f)` of a `float64`. -/
def float64ToInt8 (rt : Runtime) (f : Float64) : Int :=
  if fitsInt 8 f.trunc then f.trunc else wrapInt 8 (rt.oorInt8 f)

/-- The type assertion `v.(string)`. -/
def assertString : JSONValue → Option String
  | .str s => some s
  | _ => none

/-- The type assertion `v.(float64)`. -/
def assertFloat64 : JSONValue → Option Float64
  | .num f => some f
  | _ => none

/-- Substitution of the operands for the verbs `%s` of a format. -/
def sprintfChars : List Char → List String → List Char
  | '%' :: 's' :: rest, a :: args => a.toList ++ sprintfChars rest args
  | '%' :: 's' :: rest, [] => "%!s(MISSING)".toList ++ sprintfChars rest []
  | c :: rest, args => c :: sprintfChars rest args
  | [], [] => []
  | [], a :: args =>
    ("%!(EXTRA " ++ ", ".intercalate ((a :: args).map (fun x => "string=" ++ x)) ++ ")").toList

/-- The function `fmt.Sprintf` for a format whose only verbs are `%s` and
string operands. -/
def Sprintf (format : String) (args : List String) : String :=
  String.mk (sprintfChars format.toList args)

/-! ## The program -/

def reqURL : String :=
  "https://www.rescuetime.com/anapi/data?pv=interval&rb=%s&re=%s&key=%s&format=json&rs=minute"

def newCli : Client :=
  { DialTimeout := 5 * Second
    TLSHandshakeTimeout := 5 * Second
    Timeout := Second * 10 }

/-- The panic of an index expression out of range. -/
def indexPanic : Outcome := .panicked "runtime error: index out of range"

/-- The loop `for _, one := range respMsg.Rows` of `GetRecords`, started with
`records` already accumulated. -/
def rowsLoop (rt : Runtime) : List (List JSONValue) → List Record → Outcome
  | [], records => .returned records none
  | one :: rest, records =>
    if one.length ≠ 6 then
      .returned records (some (.errorString "record length wrong"))
    else
    -- parse date
    match one[0]? with
    | none => indexPanic
    | some v0 =>
    match assertString v0 with
    | none => .returned records (some (.errorString ("parsing time wrong: " ++ rt.fmtV v0)))
    | some beginT =>
    match timeParse beginT with
    | .error err => .returned records (some (.parseError err))
    | .ok begin =>
    -- parse time spent
    match one[1]? with
    | none => indexPanic
    | some v1 =>
    match assertFloat64 v1 with
    | none =>
      .returned records (some (.errorString ("parsing duration wrong: " ++ typeName v1)))
    | some spent =>
    -- parse activity
    match one[3]? with
    | none => indexPanic
    | some v3 =>
    match assertString v3 with
    | none =>
      .returned records (some (.errorString ("parsing activity wrong: " ++ typeName v3)))
    | some activity =>
    -- parse category
    match one[4]? with
    | none => indexPanic
    | some v4 =>
    match assertString v4 with
    | none =>
      .returned records (some (.errorString ("parsing category wrong: " ++ typeName v4)))
    | some category =>
    -- parse productivity
    match one[5]? with
    | none => indexPanic
    | some v5 =>
    match assertFloat64 v5 with
    | none =>
      .returned records (some (.errorString ("parsing productivity wrong: " ++ typeName v5)))
    | some productivity =>
      rowsLoop rt rest (records ++ [
        { Begin := begin
          Spent := float64ToInt rt spent
          Activity := activity
          Category := category
          Productivity := float64ToInt8 rt productivity }])

/-- GetRecords of a certain day; day format: "YYYY-MM-DD". -/
def GetRecords (rt : Runtime) (day key : String) : Outcome :=
  let url := Sprintf reqURL [day, day, key]
  match rt.clientGet newCli url with
  | .error err => .returned [] (some err)
  | .ok resp =>
    if resp.StatusCode ≠ 200 then
      match resp.Body.readAll with
      | .error err => .returned [] (some err)
      | .ok bodyBytes => .returned [] (some (.errorString ("bad request, " ++ bodyBytes)))
    else
      match resp.Body.decode with
      | .error err => .returned [] (some err)
      | .ok respMsg => rowsLoop rt respMsg.Rows []

/-! ## Vocabulary of the statements -/

/-- A well-formed row: exactly six elements, element 0 a string that parses
in the layout, elements 1 and 5 numbers, elements 3 and 4 strings. -/
def WellFormedRow (row : List JSONValue) : Prop :=
  ∃ s d x a c p t, row = [.str s, .num d, x, .str a, .str c, .num p] ∧ timeParse s = .ok t

/-- The record a row stands for, in the words of the specification: the parsed
time of element 0, element 1 converted to `int`, elements 3 and 4, and element 5
converted to `int8`; nothing for a row that is not well-formed. -/
def specRecord (rt : Runtime) : List JSONValue → Option Record
  | [.str s, .num d, _, .str a, .str c, .num p] =>
    match timeParse s with
    | .ok t => some ⟨t, float64ToInt rt d, a, c, float64ToInt8 rt p⟩
    | .error _ => none
  | _ => none

/-- The records of a list of rows, in the order of the rows. -/
def specRecords (rt : Runtime) (rows : List (List JSONValue)) : List Record :=
  rows.filterMap (specRecord rt)

/-- The check "is a string" on an element of a row; `msg` words the error. -/
def stringCheck (msg : JSONValue → String) : Option JSONValue → Option GoError
  | some (.str _) => none
  | some v => some (.errorString (msg v))
  | none => none

/-- The check "is a number" on an element of a row; `msg` words the error. -/
def numberCheck (msg : JSONValue → String) : Option JSONValue → Option GoError
  | some (.num _) => none
  | some v => some (.errorString (msg v))
  | none => none

/-- The check "parses as a time" on an element of a row that is a string. -/
def timeCheck : Option JSONValue → Option GoError
  | some (.str s) =>
    (match timeParse s with
      | .ok _ => none
      | .error e => some (.parseError e))
  | _ => none

/-- The checks of one row, in the fixed order of the specification, each
taken on its own: arity (exactly 6), element 0 is a string, element 0 parses
as a time, element 1 is a number, element 3 is a string, element 4 is a
string, element 5 is a number. A check that fails gives its error. -/
def rowChecks (rt : Runtime) (row : List JSONValue) : List (Option GoError) :=
  [ if row.length = 6 then none else some (.errorString "record length wrong"),
    stringCheck (fun v => "parsing time wrong: " ++ rt.fmtV v) row[0]?,
    timeCheck row[0]?,
    numberCheck (fun v => "parsing duration wrong: " ++ typeName v) row[1]?,
    stringCheck (fun v => "parsing activity wrong: " ++ typeName v) row[3]?,
    stringCheck (fun v => "parsing category wrong: " ++ typeName v) row[4]?,
    numberCheck (fun v => "parsing productivity wrong: " ++ typeName v) row[5]? ]

/-- The error of a row in the words of the specification: that of its first
failing check, none when every check passes. -/
def specRowError (rt : Runtime) (row : List JSONValue) : Option GoError :=
  (rowChecks rt row).findSome? id

/-- The error of a list of rows in the words of the specification: that of the
first failing row in input order. -/
def specFirstError (rt : Runtime) (rows : List (List JSONValue)) : Option GoError :=
  rows.findSome? (specRowError rt)

/-- Two rows that agree in length and at the positions 0, 1, 3, 4 and 5. -/
def AgreeOffTwo (r1 r2 : List JSONValue) : Prop :=
  r1.length = r2.length ∧ r1[0]? = r2[0]? ∧ r1[1]? = r2[1]? ∧ r1[3]? = r2[3]? ∧
    r1[4]? = r2[4]? ∧ r1[5]? = r2[5]?

/-- Whether `p` is the beginning of `s`. -/
def startsWith (s p : String) : Prop := ∃ rest : String, s = p ++ rest

/-- Whether `b` occurs in `s`. -/
def containsText (s b : String) : Prop := ∃ pre post : String, s = pre ++ b ++ post

/-! ## Sample platform and responses -/

/-- A rendering of scalars as `%v` prints them: `<nil>`, `true`, `false`, the
text of a string, the decimal digits of an integral number below a million.
Other numbers and containers are shown by their type between angle brackets. -/
def sampleFmtV : JSONValue → String
  | .null => "<nil>"
  | .bool true => "true"
  | .bool false => "false"
  | .str s => s
  | .num f =>
    if 0 ≤ f.exp ∧ f.mant * 2 ^ f.exp.toNat < 1000000 then
      (if f.neg then "-" else "") ++ toString (f.mant * 2 ^ f.exp.toNat)
    else "<float64>"
  | .arr _ => "<[]interface {}>"
  | .obj _ => "<map[string]interface {}>"

/-- A 64-bit platform with the conversions of amd64 (an integer part that does
not fit gives the smallest `int64`, and for `int8` the low byte of the
smallest `int32` unless it fits `int32`), whose transport hands out `get` for
every request. -/
def amd64 (get : Except GoError Response) : Runtime :=
  { intBits := 64
    intBits_ok := Or.inr rfl
    oorInt := fun _ => -(2 ^ 63)
    oorInt8 := fun f => if fitsInt 32 f.trunc then f.trunc else -(2 ^ 31)
    fmtV := sampleFmtV
    clientGet := fun _ _ => get }

/-- A 200 response whose body decodes to an envelope with the given rows. -/
def okResponse (raw : String) (rows : List (List JSONValue)) : Response :=
  { StatusCode := 200
    Body := { readAll := .ok raw, decode := .ok ⟨"null", "null", rows⟩ } }

/-- The row `["2023-05-01T10:00:00", 300.0, "x", "Coding", "Software Development", 2.0]`. -/
def sampleRow : List JSONValue :=
  [.str "2023-05-01T10:00:00", .num (Float64.ofInt 300), .str "x", .str "Coding",
   .str "Software Development", .num (Float64.ofInt 2)]

/-- The record of `sampleRow`. -/
def sampleRecord : Record :=
  { Begin := ⟨2023, 5, 1, 10, 0, 0, 0⟩
    Spent := 300
    Activity := "Coding"
    Category := "Software Development"
    Productivity := 2 }

/-- The number `1e19`, that is `5^19 * 2^19`. -/
def tenPow19 : Float64 := ⟨false, 19073486328125, 19⟩

/-- The row `["2023-05-01T10:00:00", 1e19, "x", "Coding", "Software Development", 2.0]`. -/
def bigRow : List JSONValue :=
  [.str "2023-05-01T10:00:00", .num tenPow19, .str "x", .str "Coding",
   .str "Software Development", .num (Float64.ofInt 2)]

/-- A row that is well-formed but for its duration field, which is `v`. -/
def durationRow (v : JSONValue) : List JSONValue :=
  [.str "2023-05-01T10:05:00", v, .null, .str "a", .str "b", .num (Float64.ofInt 2)]

/-- A 403 response with the body `invalid key`; the body is no JSON document. -/
def forbidden : Response :=
  { StatusCode := 403
    Body :=
      { readAll := .ok "invalid key"
        decode := .error (.external "invalid character 'i' looking for beginning of value") } }

/-- A 200 response whose body is not JSON. -/
def garbled : Response :=
  { StatusCode := 200
    Body :=
      { readAll := .ok "<html>"
        decode := .error (.external "invalid character '<' looking for beginning of value") } }

/-! ## The loop over the rows -/

theorem rowsLoop_wellFormed_row (rt : Runtime) (rest : List (List JSONValue))
    (acc : List Record) (s : String) (d : Float64) (x : JSONValue) (a c : String)
    (p : Float64) (t : Time) (ht : timeParse s = .ok t) :
    rowsLoop rt ([.str s, .num d, x, .str a, .str c, .num p] :: rest) acc
      = rowsLoop rt rest (acc ++ [⟨t, float64ToInt rt d, a, c, float64ToInt8 rt p⟩]) := by
  simp [rowsLoop, assertString, assertFloat64, ht]

theorem specRecord_wellFormed (rt : Runtime) (s : String) (d : Float64) (x : JSONValue)
    (a c : String) (p : Float64) (t : Time) (ht : timeParse s = .ok t) :
    specRecord rt [.str s, .num d, x, .str a, .str c, .num p]
      = some ⟨t, float64ToInt rt d, a, c, float64ToInt8 rt p⟩ := by
  simp [specRecord, ht]

theorem specRecord_isSome_iff (rt : Runtime) (row : List JSONValue) :
    (specRecord rt row).isSome ↔ WellFormedRow row := by
  constructor
  · intro h
    unfold specRecord at h
    split at h
    · rename_i s d x a c p
      split at h
      · rename_i t ht
        exact ⟨s, d, x, a, c, p, t, rfl, ht⟩
      · simp at h
    · simp at h
  · rintro ⟨s, d, x, a, c, p, t, rfl, ht⟩
    simp [specRecord_wellFormed rt s d x a c p t ht]

/-- The loop runs through a well-formed prefix and appends its records. -/
theorem rowsLoop_append (rt : Runtime) (pre rest : List (List JSONValue))
    (hpre : ∀ r ∈ pre, WellFormedRow r) (acc : List Record) :
    rowsLoop rt (pre ++ rest) acc = rowsLoop rt rest (acc ++ specRecords rt pre) := by
  induction pre generalizing acc with
  | nil => simp [specRecords]
  | cons one pre ih =>
    obtain ⟨s, d, x, a, c, p, t, rfl, ht⟩ := hpre _ (List.mem_cons_self _ _)
    have hpre2 : ∀ r ∈ pre, WellFormedRow r := fun r hr => hpre r (List.mem_cons_of_mem _ hr)
    rw [List.cons_append, rowsLoop_wellFormed_row rt _ acc s d x a c p t ht, ih hpre2]
    simp [specRecords, List.filterMap_cons, specRecord_wellFormed rt s d x a c p t ht]

/-- The records of well-formed rows: one for each row, in order. -/
theorem specRecords_map_some (rt : Runtime) (pre : List (List JSONValue))
    (hpre : ∀ r ∈ pre, WellFormedRow r) :
    (specRecords rt pre).map some = pre.map (specRecord rt) := by
  induction pre with
  | nil => simp [specRecords]
  | cons one pre ih =>
    obtain ⟨s, d, x, a, c, p, t, rfl, ht⟩ := hpre _ (List.mem_cons_self _ _)
    have hpre2 : ∀ r ∈ pre, WellFormedRow r := fun r hr => hpre r (List.mem_cons_of_mem _ hr)
    have ih2 := ih hpre2
    simp only [specRecords] at ih2 ⊢
    simp [List.filterMap_cons, specRecord_wellFormed rt s d x a c p t ht, ih2]

theorem specRecords_length (rt : Runtime) (pre : List (List JSONValue))
    (hpre : ∀ r ∈ pre, WellFormedRow r) :
    (specRecords rt pre).length = pre.length := by
  have h := congrArg List.length (specRecords_map_some rt pre hpre)
  simpa using h

/-- A row that is not well-formed stops the loop with an error and the
records accumulated so far. -/
theorem rowsLoop_failing_row (rt : Runtime) (one : List JSONValue)
    (rest : List (List JSONValue)) (acc : List Record) (hbad : ¬ WellFormedRow one) :
    ∃ e, rowsLoop rt (one :: rest) acc = .returned acc (some e) := by
  by_cases hlen : one.length = 6
  · match one, hlen with
    | [v0, v1, v2, v3, v4, v5], _ =>
      cases h0 : assertString v0 with
      | none => simp [rowsLoop, h0]
      | some s =>
        cases ht : timeParse s with
        | error e => simp [rowsLoop, h0, ht]
        | ok t =>
          cases h1 : assertFloat64 v1 with
          | none => simp [rowsLoop, h0, ht, h1]
          | some d =>
            cases h3 : assertString v3 with
            | none => simp [rowsLoop, h0, ht, h1, h3]
            | some a =>
              cases h4 : assertString v4 with
              | none => simp [rowsLoop, h0, ht, h1, h3, h4]
              | some c =>
                cases h5 : assertFloat64 v5 with
                | none => simp [rowsLoop, h0, ht, h1, h3, h4, h5]
                | some p =>
                  exfalso
                  apply hbad
                  cases v0 <;> simp [assertString] at h0
                  cases v1 <;> simp [assertFloat64] at h1
                  cases v3 <;> simp [assertString] at h3
                  cases v4 <;> simp [assertString] at h4
                  cases v5 <;> simp [assertFloat64] at h5
                  subst h0 h1 h3 h4 h5
                  exact ⟨_, _, _, _, _, _, t, rfl, ht⟩
  · exact ⟨.errorString "record length wrong", by simp [rowsLoop, hlen]⟩

/-- What `GetRecords` does with a 200 response whose body decodes. -/
theorem GetRecords_decoded (rt : Runtime) (day key : String) (resp : Response)
    (env : rtResponse)
    (hget : rt.clientGet newCli (Sprintf reqURL [day, day, key]) = .ok resp)
    (hstatus : resp.StatusCode = 200) (hdecode : resp.Body.decode = .ok env) :
    GetRecords rt day key = rowsLoop rt env.Rows [] := by
  simp [GetRecords, hget, hstatus, hdecode]

/-- A 200 response whose rows are a well-formed prefix followed by further rows. -/
theorem GetRecords_append (rt : Runtime) (day key : String) (resp : Response)
    (env : rtResponse) (pre rest : List (List JSONValue))
    (hget : rt.clientGet newCli (Sprintf reqURL [day, day, key]) = .ok resp)
    (hstatus : resp.StatusCode = 200) (hdecode : resp.Body.decode = .ok env)
    (hrows : env.Rows = pre ++ rest) (hpre : ∀ r ∈ pre, WellFormedRow r) :
    GetRecords rt day key = rowsLoop rt rest (specRecords rt pre) := by
  rw [GetRecords_decoded rt day key resp env hget hstatus hdecode, hrows,
    rowsLoop_append rt pre rest hpre, List.nil_append]

/-! ## Integer conversions -/

theorem wrapInt_fits (w : Nat) (hw : 0 < w) (x : Int) : fitsInt w (wrapInt w x) := by
  unfold fitsInt wrapInt
  have hp : (0 : Int) < 2 ^ (w - 1) := by positivity
  have h2 : (2 : Int) ^ w = 2 * 2 ^ (w - 1) := by
    obtain ⟨k, rfl⟩ : ∃ k, w = k + 1 := ⟨w - 1, by omega⟩
    simp [pow_succ, mul_comm]
  have hpos : (0 : Int) < 2 ^ w := by positivity
  have h0 := Int.emod_nonneg (x + 2 ^ (w - 1)) (ne_of_gt hpos)
  have h1 := Int.emod_lt_of_pos (x + 2 ^ (w - 1)) hpos
  constructor <;> omega

theorem float64ToInt8_fits (rt : Runtime) (f : Float64) : fitsInt 8 (float64ToInt8 rt f) := by
  unfold float64ToInt8
  split
  · assumption
  · exact wrapInt_fits 8 (by decide) _

theorem float64ToInt_fits (rt : Runtime) (f : Float64) :
    fitsInt rt.intBits (float64ToInt rt f) := by
  unfold float64ToInt
  split
  · assumption
  · exact wrapInt_fits _ (by rcases rt.intBits_ok with h | h <;> omega) _

theorem float64ToInt_of_fits (rt : Runtime) (f : Float64)
    (h : fitsInt rt.intBits f.trunc) : float64ToInt rt f = f.trunc := by
  simp [float64ToInt, h]

/-! ## The claims -/

/-- C1, as amended. For every 200 response whose decoded envelope has N rows
that are all well-formed, `GetRecords` returns a nil error and exactly N
records, and the i-th record is the conversion of the i-th row: `Begin` is the
parsed time of element 0, `Spent` is `int(element 1)`, which is element 1
truncated toward zero whenever that integer fits Go's `int`, `Activity` is
element 3, `Category` is element 4, and `Productivity` is `int8(element 5)`,
a signed 8-bit value. -/
theorem GetRecords_wellFormed_rows (rt : Runtime) (day key : String) (resp : Response)
    (env : rtResponse)
    (hget : rt.clientGet newCli (Sprintf reqURL [day, day, key]) = .ok resp)
    (hstatus : resp.StatusCode = 200) (hdecode : resp.Body.decode = .ok env)
    (hrows : ∀ r ∈ env.Rows, WellFormedRow r) :
    ∃ recs, GetRecords rt day key = .returned recs none ∧
      recs.length = env.Rows.length ∧
      ∀ (i : Nat) (s : String) (d : Float64) (x : JSONValue) (a c : String) (p : Float64),
        env.Rows[i]? = some [.str s, .num d, x, .str a, .str c, .num p] →
        ∃ t rc, timeParse s = .ok t ∧ recs[i]? = some rc ∧ rc.Begin = t ∧
          rc.Spent = float64ToInt rt d ∧
          (fitsInt rt.intBits d.trunc → rc.Spent = d.trunc) ∧
          rc.Activity = a ∧ rc.Category = c ∧
          rc.Productivity = float64ToInt8 rt p ∧ fitsInt 8 rc.Productivity := by
  refine ⟨specRecords rt env.Rows, ?_, specRecords_length rt _ hrows, ?_⟩
  · rw [GetRecords_append rt day key resp env env.Rows [] hget hstatus hdecode (by simp) hrows]
    simp [rowsLoop]
  · intro i s d x a c p hi
    obtain ⟨s', d', x', a', c', p', t, heq, ht⟩ := hrows _ (List.getElem?_mem hi)
    injection heq with h0 heq
    injection heq with h1 heq
    injection heq with h2 heq
    injection heq with h3 heq
    injection heq with h4 heq
    injection heq with h5 heq
    injection h0 with h0
    injection h1 with h1
    injection h3 with h3
    injection h4 with h4
    injection h5 with h5
    subst h0 h1 h2 h3 h4 h5
    have hmap := congrArg (fun l => l[i]?) (specRecords_map_some rt env.Rows hrows)
    simp only [List.getElem?_map, hi, Option.map_some',
      specRecord_wellFormed rt s d x a c p t ht] at hmap
    cases hrec : (specRecords rt env.Rows)[i]? with
    | none => simp [hrec] at hmap
    | some rc =>
      simp only [hrec, Option.map_some', Option.some.injEq] at hmap
      subst hmap
      exact ⟨t, _, ht, rfl, rfl, rfl, fun h => float64ToInt_of_fits rt d h, rfl, rfl, rfl,
        float64ToInt8_fits rt p⟩

/-- C1, witness: two well-formed rows on a 64-bit platform. -/
theorem GetRecords_wellFormed_rows_witness :
    ∃ recs, GetRecords (amd64 (.ok (okResponse "" [sampleRow, bigRow]))) "2023-05-01" "key"
        = .returned recs none ∧
      recs.length = [sampleRow, bigRow].length ∧
      ∀ (i : Nat) (s : String) (d : Float64) (x : JSONValue) (a c : String) (p : Float64),
        [sampleRow, bigRow][i]? = some [.str s, .num d, x, .str a, .str c, .num p] →
        ∃ t rc, timeParse s = .ok t ∧ recs[i]? = some rc ∧ rc.Begin = t ∧
          rc.Spent = float64ToInt (amd64 (.ok (okResponse "" [sampleRow, bigRow]))) d ∧
          (fitsInt 64 d.trunc → rc.Spent = d.trunc) ∧
          rc.Activity = a ∧ rc.Category = c ∧
          rc.Productivity = float64ToInt8 (amd64 (.ok (okResponse "" [sampleRow, bigRow]))) p ∧
          fitsInt 8 rc.Productivity :=
  GetRecords_wellFormed_rows (amd64 (.ok (okResponse "" [sampleRow, bigRow]))) "2023-05-01" "key"
    (okResponse "" [sampleRow, bigRow]) ⟨"null", "null", [sampleRow, bigRow]⟩ rfl rfl rfl
    (by
      intro r hr
      simp only [List.mem_cons, List.mem_singleton, List.not_mem_nil, or_false] at hr
      rcases hr with rfl | rfl
      · exact ⟨_, _, _, _, _, _, ⟨2023, 5, 1, 10, 0, 0, 0⟩, rfl, rfl⟩
      · exact ⟨_, _, _, _, _, _, ⟨2023, 5, 1, 10, 0, 0, 0⟩, rfl, rfl⟩)

/-- C1, counterexample to the claim as written. The row `bigRow` is
well-formed and its element 1 is `1e19`, whose truncation toward zero is
`10000000000000000000`; no 64-bit `int` has that value, and on amd64 the
record has `Spent = -9223372036854775808`. -/
theorem GetRecords_spent_not_truncation :
    WellFormedRow bigRow ∧
    GetRecords (amd64 (.ok (okResponse "" [bigRow]))) "2023-05-01" "key"
      = .returned [{ Begin := ⟨2023, 5, 1, 10, 0, 0, 0⟩, Spent := -9223372036854775808,
                     Activity := "Coding", Category := "Software Development",
                     Productivity := 2 }] none ∧
    tenPow19.trunc = 10000000000000000000 ∧
    ¬ fitsInt 64 tenPow19.trunc :=
  ⟨⟨_, _, _, _, _, _, ⟨2023, 5, 1, 10, 0, 0, 0⟩, rfl, rfl⟩, by rfl, by rfl, by decide⟩

/-- C2. For every 200 response whose decoded rows contain a failing row,
`GetRecords` returns a non-nil error together with exactly the records
converted from the rows that precede the first failing row, in their order:
one record for each earlier row, none for the failing row or a later one. -/
theorem GetRecords_first_failing_row (rt : Runtime) (day key : String) (resp : Response)
    (env : rtResponse) (pre post : List (List JSONValue)) (bad : List JSONValue)
    (hget : rt.clientGet newCli (Sprintf reqURL [day, day, key]) = .ok resp)
    (hstatus : resp.StatusCode = 200) (hdecode : resp.Body.decode = .ok env)
    (hrows : env.Rows = pre ++ bad :: post) (hpre : ∀ r ∈ pre, WellFormedRow r)
    (hbad : ¬ WellFormedRow bad) :
    ∃ recs e, GetRecords rt day key = .returned recs (some e) ∧
      recs.map some = pre.map (specRecord rt) ∧ recs.length = pre.length := by
  obtain ⟨e, he⟩ := rowsLoop_failing_row rt bad post (specRecords rt pre) hbad
  refine ⟨specRecords rt pre, e, ?_, specRecords_map_some rt pre hpre,
    specRecords_length rt pre hpre⟩
  rw [GetRecords_append rt day key resp env pre (bad :: post) hget hstatus hdecode hrows hpre, he]

/-- C2, witness: a good row, a row whose productivity is a string, a good row. -/
theorem GetRecords_first_failing_row_witness :
    ∃ recs e,
      GetRecords (amd64 (.ok (okResponse ""
        [sampleRow, [.str "2023-05-01T10:05:00", .num (Float64.ofInt 300), .null, .str "a",
          .str "b", .str "2"], sampleRow]))) "2023-05-01" "key" = .returned recs (some e) ∧
      recs.map some = [sampleRow].map (specRecord (amd64 (.ok (okResponse ""
        [sampleRow, [.str "2023-05-01T10:05:00", .num (Float64.ofInt 300), .null, .str "a",
          .str "b", .str "2"], sampleRow])))) ∧
      recs.length = [sampleRow].length :=
  GetRecords_first_failing_row _ "2023-05-01" "key" _ ⟨"null", "null", _⟩ [sampleRow] [sampleRow]
    [.str "2023-05-01T10:05:00", .num (Float64.ofInt 300), .null, .str "a", .str "b", .str "2"]
    rfl rfl rfl rfl
    (by
      intro r hr
      simp only [List.mem_singleton] at hr
      subst hr
      exact ⟨_, _, _, _, _, _, ⟨2023, 5, 1, 10, 0, 0, 0⟩, rfl, rfl⟩)
    (by
      rintro ⟨s, d, x, a, c, p, t, heq, -⟩
      simp at heq)

/-- C3. For every 200 response in which some row has a number of elements
different from 6 and all rows before it are well-formed, `GetRecords` fails
with the error "record length wrong" and returns the records converted from
the rows before it. -/
theorem GetRecords_record_length_wrong (rt : Runtime) (day key : String) (resp : Response)
    (env : rtResponse) (pre post : List (List JSONValue)) (bad : List JSONValue)
    (hget : rt.clientGet newCli (Sprintf reqURL [day, day, key]) = .ok resp)
    (hstatus : resp.StatusCode = 200) (hdecode : resp.Body.decode = .ok env)
    (hrows : env.Rows = pre ++ bad :: post) (hpre : ∀ r ∈ pre, WellFormedRow r)
    (hbad : bad.length ≠ 6) :
    GetRecords rt day key
        = .returned (specRecords rt pre) (some (.errorString "record length wrong")) ∧
      (specRecords rt pre).map some = pre.map (specRecord rt) := by
  refine ⟨?_, specRecords_map_some rt pre hpre⟩
  rw [GetRecords_append rt day key resp env pre (bad :: post) hget hstatus hdecode hrows hpre]
  simp [rowsLoop, hbad]

/-- C3, witness: a good row followed by an empty row, and then by a row of
seven elements. -/
theorem GetRecords_record_length_wrong_witness :
    GetRecords (amd64 (.ok (okResponse ""
        [sampleRow, [], [.null, .null, .null, .null, .null, .null, .null]])))
        "2023-05-01" "key"
      = .returned [sampleRecord] (some (.errorString "record length wrong")) ∧
    [some sampleRecord] = [sampleRow].map (specRecord (amd64 (.ok (okResponse ""
        [sampleRow, [], [.null, .null, .null, .null, .null, .null, .null]])))) :=
  GetRecords_record_length_wrong _ "2023-05-01" "key" _ ⟨"null", "null", _⟩ [sampleRow]
    [[.null, .null, .null, .null, .null, .null, .null]] [] rfl rfl rfl rfl
    (by
      intro r hr
      simp only [List.mem_singleton] at hr
      subst hr
      exact ⟨_, _, _, _, _, _, ⟨2023, 5, 1, 10, 0, 0, 0⟩, rfl, rfl⟩)
    (by decide)

/-- C4. For every response whose status is not 200 and whose body is read
successfully as text `b`, `GetRecords` returns no records and an error whose
message is "bad request, " followed by `b`, so the message contains `b`. The
body is not decoded on this path: nothing is assumed of `resp.Body.decode`, and
any response with the same status and the same body text has the same outcome. -/
theorem GetRecords_bad_status (rt : Runtime) (day key : String) (resp : Response)
    (b : String)
    (hget : rt.clientGet newCli (Sprintf reqURL [day, day, key]) = .ok resp)
    (hstatus : resp.StatusCode ≠ 200) (hread : resp.Body.readAll = .ok b) :
    GetRecords rt day key = .returned [] (some (.errorString ("bad request, " ++ b))) ∧
      containsText ("bad request, " ++ b) b ∧
      ∀ (rt2 : Runtime) (resp2 : Response),
        rt2.clientGet newCli (Sprintf reqURL [day, day, key]) = .ok resp2 →
        resp2.StatusCode = resp.StatusCode → resp2.Body.readAll = resp.Body.readAll →
        GetRecords rt2 day key = GetRecords rt day key := by
  refine ⟨by simp [GetRecords, hget, hstatus, hread], ⟨"bad request, ", "", by simp⟩, ?_⟩
  intro rt2 resp2 hget2 hs2 hr2
  simp [GetRecords, hget, hget2, hs2, hr2, hstatus, hread]

/-- C4, witness: status 403 with the body `invalid key`. -/
theorem GetRecords_bad_status_witness :
    GetRecords (amd64 (.ok forbidden)) "2023-05-01" "key"
      = .returned [] (some (.errorString "bad request, invalid key")) ∧
    containsText "bad request, invalid key" "invalid key" ∧
    ∀ (rt2 : Runtime) (resp2 : Response),
      rt2.clientGet newCli (Sprintf reqURL ["2023-05-01", "2023-05-01", "key"]) = .ok resp2 →
      resp2.StatusCode = forbidden.StatusCode →
      resp2.Body.readAll = forbidden.Body.readAll →
      GetRecords rt2 "2023-05-01" "key" = GetRecords (amd64 (.ok forbidden)) "2023-05-01" "key" :=
  GetRecords_bad_status (amd64 (.ok forbidden)) "2023-05-01" "key" forbidden "invalid key"
    rfl (by decide) rfl

/-- C5. For every 200 response whose body fails to decode as the JSON envelope,
`GetRecords` returns the decode error and no records; the loop over the rows
is not entered. -/
theorem GetRecords_decode_error (rt : Runtime) (day key : String) (resp : Response)
    (e : GoError)
    (hget : rt.clientGet newCli (Sprintf reqURL [day, day, key]) = .ok resp)
    (hstatus : resp.StatusCode = 200) (hdecode : resp.Body.decode = .error e) :
    GetRecords rt day key = .returned [] (some e) := by
  simp [GetRecords, hget, hstatus, hdecode]

/-- C5, witness: a 200 response carrying an HTML page. -/
theorem GetRecords_decode_error_witness :
    GetRecords (amd64 (.ok garbled)) "2023-05-01" "key"
      = .returned []
          (some (.external "invalid character '<' looking for beginning of value")) :=
  GetRecords_decode_error (amd64 (.ok garbled)) "2023-05-01" "key" garbled _ rfl rfl rfl

/-- Texts the layout rejects: a date without time, a time with a zone, the
empty text, a month 13, a 30th of February. -/
theorem timeParse_rejects :
    timeParse "2023-05-01" = .error (.cannotParse "T" []) ∧
    timeParse "2023-05-01T10:00:00Z" = .error (.extraText [90]) ∧
    timeParse "2023-05-01T10:00:00+02:00" = .error (.extraText [43, 48, 50, 58, 48, 48]) ∧
    timeParse "" = .error (.cannotParse "2006" []) ∧
    (∃ rest, timeParse "2023-13-01T10:00:00" = .error (.outOfRange "month" "01" rest)) ∧
    timeParse "2023-02-30T10:00:00" = .error .dayOutOfRange :=
  ⟨by rfl, by rfl, by rfl, by rfl, ⟨_, by rfl⟩, by rfl⟩

/-- C6. For every 200 response containing a 6-element row whose element 0 is
not a string, where all earlier rows are well-formed, `GetRecords` fails with
the message "parsing time wrong: " followed by the rendering of that element,
whatever the other five elements of the row are. -/
theorem GetRecords_time_not_string (rt : Runtime) (day key : String) (resp : Response)
    (env : rtResponse) (pre post : List (List JSONValue)) (v x1 x2 x3 x4 x5 : JSONValue)
    (hget : rt.clientGet newCli (Sprintf reqURL [day, day, key]) = .ok resp)
    (hstatus : resp.StatusCode = 200) (hdecode : resp.Body.decode = .ok env)
    (hrows : env.Rows = pre ++ [v, x1, x2, x3, x4, x5] :: post)
    (hpre : ∀ r ∈ pre, WellFormedRow r) (hv : ∀ s, v ≠ .str s) :
    GetRecords rt day key
      = .returned (specRecords rt pre)
          (some (.errorString ("parsing time wrong: " ++ rt.fmtV v))) := by
  rw [GetRecords_append rt day key resp env pre _ hget hstatus hdecode hrows hpre]
  have h0 : assertString v = none := by
    cases v <;> simp [assertString]
    exact hv _ rfl
  simp [rowsLoop, h0]

/-- C6, witness: a row whose time is `null` and whose other elements are
not of the expected types either. -/
theorem GetRecords_time_not_string_witness :
    GetRecords (amd64 (.ok (okResponse ""
        [sampleRow, [.null, .str "300", .null, .bool true, .arr [], .obj []]])))
        "2023-05-01" "key"
      = .returned [sampleRecord] (some (.errorString "parsing time wrong: <nil>")) :=
  GetRecords_time_not_string _ "2023-05-01" "key" _ ⟨"null", "null", _⟩ [sampleRow] []
    .null (.str "300") .null (.bool true) (.arr []) (.obj []) rfl rfl rfl rfl
    (by
      intro r hr
      simp only [List.mem_singleton] at hr
      subst hr
      exact ⟨_, _, _, _, _, _, ⟨2023, 5, 1, 10, 0, 0, 0⟩, rfl, rfl⟩)
    (by intro s h; cases h)

/-- C7, as amended. In a 200 response whose earlier rows are all well-formed,
a 6-element row whose element 0 is a string that parses and whose element 1 is
not a number makes `GetRecords` fail with "parsing duration wrong: " followed
by the type of element 1; and a 6-element row whose element 0 parses, whose
element 1 is a number, whose elements 3 and 4 are strings and whose element 5
is not a number makes it fail with "parsing productivity wrong: " followed by
the type of element 5. The records of the earlier rows are returned. -/
theorem GetRecords_duration_productivity_errors (rt : Runtime) (day key : String)
    (resp : Response) (env : rtResponse) (pre post : List (List JSONValue))
    (bad : List JSONValue)
    (hget : rt.clientGet newCli (Sprintf reqURL [day, day, key]) = .ok resp)
    (hstatus : resp.StatusCode = 200) (hdecode : resp.Body.decode = .ok env)
    (hrows : env.Rows = pre ++ bad :: post) (hpre : ∀ r ∈ pre, WellFormedRow r) :
    (∀ (s : String) (t : Time) (v1 x2 x3 x4 x5 : JSONValue),
        bad = [.str s, v1, x2, x3, x4, x5] → timeParse s = .ok t → (∀ f, v1 ≠ .num f) →
        GetRecords rt day key
          = .returned (specRecords rt pre)
              (some (.errorString ("parsing duration wrong: " ++ typeName v1))) ∧
        startsWith ("parsing duration wrong: " ++ typeName v1) "parsing duration wrong: ") ∧
    (∀ (s : String) (t : Time) (d : Float64) (x2 : JSONValue) (a c : String) (v5 : JSONValue),
        bad = [.str s, .num d, x2, .str a, .str c, v5] → timeParse s = .ok t →
        (∀ f, v5 ≠ .num f) →
        GetRecords rt day key
          = .returned (specRecords rt pre)
              (some (.errorString ("parsing productivity wrong: " ++ typeName v5))) ∧
        startsWith ("parsing productivity wrong: " ++ typeName v5)
          "parsing productivity wrong: ") := by
  constructor
  · intro s t v1 x2 x3 x4 x5 hb ht hv
    subst hb
    refine ⟨?_, _, rfl⟩
    rw [GetRecords_append rt day key resp env pre _ hget hstatus hdecode hrows hpre]
    have h1 : assertFloat64 v1 = none := by
      cases v1 <;> simp [assertFloat64]
      exact hv _ rfl
    simp [rowsLoop, assertString, ht, h1]
  · intro s t d x2 a c v5 hb ht hv
    subst hb
    refine ⟨?_, _, rfl⟩
    rw [GetRecords_append rt day key resp env pre _ hget hstatus hdecode hrows hpre]
    have h5 : assertFloat64 v5 = none := by
      cases v5 <;> simp [assertFloat64]
      exact hv _ rfl
    simp [rowsLoop, assertString, assertFloat64, ht, h5]

/-- C7, witness: after a good row, a row whose duration is the string "300". -/
theorem GetRecords_duration_productivity_errors_witness :
    GetRecords (amd64 (.ok (okResponse ""
        [sampleRow, [.str "2023-05-01T10:05:00", .str "300", .null, .str "a", .str "b",
          .num (Float64.ofInt 2)]]))) "2023-05-01" "key"
      = .returned [sampleRecord] (some (.errorString "parsing duration wrong: string")) ∧
    startsWith "parsing duration wrong: string" "parsing duration wrong: " :=
  (GetRecords_duration_productivity_errors _ "2023-05-01" "key" _ ⟨"null", "null", _⟩
    [sampleRow] []
    [.str "2023-05-01T10:05:00", .str "300", .null, .str "a", .str "b", .num (Float64.ofInt 2)]
    rfl rfl rfl rfl
    (by
      intro r hr
      simp only [List.mem_singleton] at hr
      subst hr
      exact ⟨_, _, _, _, _, _, ⟨2023, 5, 1, 10, 0, 0, 0⟩, rfl, rfl⟩)).1
    "2023-05-01T10:05:00" ⟨2023, 5, 1, 10, 5, 0, 0⟩ (.str "300") .null (.str "a") (.str "b")
    (.num (Float64.ofInt 2)) rfl rfl (by intro f h; cases h)

/-- C7, counterexample to the claim as written. The only row has six elements
and neither its duration nor its productivity is a number, but its time is
`null`: the call fails with the time error, which is neither the duration
error nor the productivity error. -/
theorem GetRecords_duration_error_preempted :
    GetRecords (amd64 (.ok (okResponse ""
        [[.null, .str "300", .null, .str "a", .str "b", .str "2"]]))) "2023-05-01" "key"
      = .returned [] (some (.errorString "parsing time wrong: <nil>")) ∧
    ¬ startsWith "parsing time wrong: <nil>" "parsing duration wrong: " ∧
    ¬ startsWith "parsing time wrong: <nil>" "parsing productivity wrong: " := by
  refine ⟨by rfl, ?_, ?_⟩
  · rintro ⟨rest, h⟩
    have h2 := congrArg (fun s : String => s.data.get? 8) h
    simp at h2
  · rintro ⟨rest, h⟩
    have h2 := congrArg (fun s : String => s.data.get? 8) h
    simp at h2

/-- C8. For every 200 response containing a 6-element row whose element 0 is a
string that does not parse in the layout, where all earlier rows are
well-formed, the call fails with the error of the time parser, and the records
returned are those of the earlier rows: none for that row or a later one. -/
theorem GetRecords_time_unparseable (rt : Runtime) (day key : String) (resp : Response)
    (env : rtResponse) (pre post : List (List JSONValue)) (s : String)
    (x1 x2 x3 x4 x5 : JSONValue) (e : ParseError)
    (hget : rt.clientGet newCli (Sprintf reqURL [day, day, key]) = .ok resp)
    (hstatus : resp.StatusCode = 200) (hdecode : resp.Body.decode = .ok env)
    (hrows : env.Rows = pre ++ [.str s, x1, x2, x3, x4, x5] :: post)
    (hpre : ∀ r ∈ pre, WellFormedRow r) (hs : timeParse s = .error e) :
    GetRecords rt day key = .returned (specRecords rt pre) (some (.parseError e)) ∧
      (specRecords rt pre).map some = pre.map (specRecord rt) := by
  refine ⟨?_, specRecords_map_some rt pre hpre⟩
  rw [GetRecords_append rt day key resp env pre _ hget hstatus hdecode hrows hpre]
  simp [rowsLoop, assertString, hs]

/-- C8, witness: a good row, a row dated only by its day, a good row. -/
theorem GetRecords_time_unparseable_witness :
    GetRecords (amd64 (.ok (okResponse ""
        [sampleRow, [.str "2023-05-01", .num (Float64.ofInt 300), .null, .str "a", .str "b",
          .num (Float64.ofInt 2)], sampleRow]))) "2023-05-01" "key"
      = .returned [sampleRecord] (some (.parseError (.cannotParse "T" []))) ∧
    [some sampleRecord] = [sampleRow].map (specRecord (amd64 (.ok (okResponse ""
        [sampleRow, [.str "2023-05-01", .num (Float64.ofInt 300), .null, .str "a", .str "b",
          .num (Float64.ofInt 2)], sampleRow])))) :=
  GetRecords_time_unparseable _ "2023-05-01" "key" _ ⟨"null", "null", _⟩ [sampleRow]
    [sampleRow] "2023-05-01" (.num (Float64.ofInt 300)) .null (.str "a") (.str "b")
    (.num (Float64.ofInt 2)) (.cannotParse "T" []) rfl rfl rfl rfl
    (by
      intro r hr
      simp only [List.mem_singleton] at hr
      subst hr
      exact ⟨_, _, _, _, _, _, ⟨2023, 5, 1, 10, 0, 0, 0⟩, rfl, rfl⟩)
    rfl

/-- C9. For the 200 response whose rows are the single row
`["2023-05-01T10:00:00", 300.0, "x", "Coding", "Software Development", 2.0]`,
`GetRecords` returns a nil error and exactly one record, with
`Begin` = 2023-05-01 10:00:00 UTC, `Spent` = 300, `Activity` = "Coding",
`Category` = "Software Development", `Productivity` = 2. -/
theorem GetRecords_sample_row (rt : Runtime) (day key : String) (resp : Response)
    (env : rtResponse)
    (hget : rt.clientGet newCli (Sprintf reqURL [day, day, key]) = .ok resp)
    (hstatus : resp.StatusCode = 200) (hdecode : resp.Body.decode = .ok env)
    (hrows : env.Rows = [sampleRow]) :
    GetRecords rt day key
      = .returned [{ Begin := ⟨2023, 5, 1, 10, 0, 0, 0⟩, Spent := 300, Activity := "Coding",
                     Category := "Software Development", Productivity := 2 }] none := by
  rw [GetRecords_decoded rt day key resp env hget hstatus hdecode, hrows]
  have ht : timeParse "2023-05-01T10:00:00" = .ok ⟨2023, 5, 1, 10, 0, 0, 0⟩ := by rfl
  have h300 : float64ToInt rt (Float64.ofInt 300) = 300 := by
    have htr : (Float64.ofInt 300).trunc = 300 := by rfl
    rw [float64ToInt_of_fits rt _ (by
      rw [htr]
      rcases rt.intBits_ok with h | h <;> rw [h] <;> decide), htr]
  have h2 : float64ToInt8 rt (Float64.ofInt 2) = 2 := by
    have htr : (Float64.ofInt 2).trunc = 2 := by rfl
    have hf : fitsInt 8 (Float64.ofInt 2).trunc := by rw [htr]; decide
    unfold float64ToInt8
    rw [if_pos hf, htr]
  rw [sampleRow, rowsLoop_wellFormed_row rt [] [] _ _ _ _ _ _ _ ht, h300, h2]
  simp [rowsLoop]

/-- C9, witness: the response on the sample platform. -/
theorem GetRecords_sample_row_witness :
    GetRecords (amd64 (.ok (okResponse "" [sampleRow]))) "2023-05-01" "key"
      = .returned [{ Begin := ⟨2023, 5, 1, 10, 0, 0, 0⟩, Spent := 300, Activity := "Coding",
                     Category := "Software Development", Productivity := 2 }] none :=
  GetRecords_sample_row _ "2023-05-01" "key" (okResponse "" [sampleRow])
    ⟨"null", "null", [sampleRow]⟩ rfl rfl rfl rfl

/-- C10. For all strings `day` and `key`, the URL `GetRecords` requests is
"https://www.rescuetime.com/anapi/data?pv=interval&rb=" ++ day ++ "&re=" ++ day
++ "&key=" ++ key ++ "&format=json&rs=minute", with `day` and `key` put in as
they are: the formatted URL is that text, a transport that refuses every
request and reports the URL it was asked for reports that text, and the
outcome is the same for any two transports that answer alike at that URL. -/
theorem GetRecords_request_url (rt : Runtime) (day key : String) :
    Sprintf reqURL [day, day, key]
      = "https://www.rescuetime.com/anapi/data?pv=interval&rb=" ++ day ++ "&re=" ++ day
          ++ "&key=" ++ key ++ "&format=json&rs=minute" ∧
    GetRecords { rt with clientGet := fun _ url => .error (.external url) } day key
      = .returned [] (some (.external
          ("https://www.rescuetime.com/anapi/data?pv=interval&rb=" ++ day ++ "&re=" ++ day
            ++ "&key=" ++ key ++ "&format=json&rs=minute"))) ∧
    ∀ get : Client → String → Except GoError Response,
      get newCli ("https://www.rescuetime.com/anapi/data?pv=interval&rb=" ++ day ++ "&re="
          ++ day ++ "&key=" ++ key ++ "&format=json&rs=minute")
        = rt.clientGet newCli ("https://www.rescuetime.com/anapi/data?pv=interval&rb=" ++ day
          ++ "&re=" ++ day ++ "&key=" ++ key ++ "&format=json&rs=minute") →
      GetRecords { rt with clientGet := get } day key = GetRecords rt day key := by
  have hurl : Sprintf reqURL [day, day, key]
      = "https://www.rescuetime.com/anapi/data?pv=interval&rb=" ++ day ++ "&re=" ++ day
          ++ "&key=" ++ key ++ "&format=json&rs=minute" := by
    apply String.ext
    simp [Sprintf, reqURL, sprintfChars]
  refine ⟨hurl, ?_, ?_⟩
  · simp [GetRecords, hurl]
  · intro get hget
    rw [← hurl] at hget
    have hloop : ∀ rows acc, rowsLoop { rt with clientGet := get } rows acc
        = rowsLoop rt rows acc := by
      intro rows
      induction rows with
      | nil => intro acc; simp [rowsLoop]
      | cons one rest ih =>
        intro acc
        simp only [rowsLoop, float64ToInt, float64ToInt8, ih]
    simp only [GetRecords, hget, hloop]

/-! ## The loop, row by row -/

/-- A row that is not well-formed stops the loop with the error of its first
failing check. -/
theorem rowsLoop_row_error (rt : Runtime) (one : List JSONValue)
    (rest : List (List JSONValue)) (acc : List Record) (hbad : ¬ WellFormedRow one) :
    rowsLoop rt (one :: rest) acc = .returned acc (specRowError rt one) ∧
      (specRowError rt one).isSome = true := by
  by_cases hlen : one.length = 6
  · match one, hlen with
    | [v0, v1, v2, v3, v4, v5], _ =>
      cases v0 with
      | str s =>
        cases ht : timeParse s with
        | error e =>
          simp [rowsLoop, specRowError, rowChecks, stringCheck, numberCheck, timeCheck,
            assertString, assertFloat64, ht]
        | ok t =>
          cases v1 with
          | num d =>
            cases v3 with
            | str a =>
              cases v4 with
              | str c =>
                cases v5 with
                | num p => exact absurd ⟨s, d, v2, a, c, p, t, rfl, ht⟩ hbad
                | _ =>
                  simp [rowsLoop, specRowError, rowChecks, stringCheck, numberCheck, timeCheck,
                    assertString, assertFloat64, ht]
              | _ =>
                simp [rowsLoop, specRowError, rowChecks, stringCheck, numberCheck, timeCheck,
                  assertString, assertFloat64, ht]
            | _ =>
              simp [rowsLoop, specRowError, rowChecks, stringCheck, numberCheck, timeCheck,
                assertString, assertFloat64, ht]
          | _ =>
            simp [rowsLoop, specRowError, rowChecks, stringCheck, numberCheck, timeCheck,
              assertString, assertFloat64, ht]
      | _ =>
        simp [rowsLoop, specRowError, rowChecks, stringCheck, numberCheck, timeCheck,
          assertString, assertFloat64]
  · simp [rowsLoop, specRowError, rowChecks, hlen]

/-- Every check of a well-formed row passes. -/
theorem specRowError_wellFormed (rt : Runtime) (one : List JSONValue)
    (h : WellFormedRow one) : specRowError rt one = none := by
  obtain ⟨s, d, x, a, c, p, t, rfl, ht⟩ := h
  simp [specRowError, rowChecks, stringCheck, numberCheck, timeCheck, ht]

/-- The loop returns: its records extend those it started with, and its error
is the error of the first failing row. -/
theorem rowsLoop_returns (rt : Runtime) (rows : List (List JSONValue)) (acc : List Record) :
    ∃ more, rowsLoop rt rows acc = .returned (acc ++ more) (specFirstError rt rows) := by
  induction rows generalizing acc with
  | nil => exact ⟨[], by simp [rowsLoop, specFirstError]⟩
  | cons one rest ih =>
    by_cases hw : WellFormedRow one
    · have hnone := specRowError_wellFormed rt one hw
      obtain ⟨s, d, x, a, c, p, t, rfl, ht⟩ := hw
      obtain ⟨more, hmore⟩ := ih (acc ++ [⟨t, float64ToInt rt d, a, c, float64ToInt8 rt p⟩])
      refine ⟨⟨t, float64ToInt rt d, a, c, float64ToInt8 rt p⟩ :: more, ?_⟩
      rw [rowsLoop_wellFormed_row rt rest acc s d x a c p t ht, hmore]
      simp [specFirstError, List.findSome?, hnone]
    · obtain ⟨hrun, hsome⟩ := rowsLoop_row_error rt one rest acc hw
      refine ⟨[], ?_⟩
      rw [hrun]
      cases he : specRowError rt one with
      | none => simp [he] at hsome
      | some e => simp [specFirstError, List.findSome?, he]

/-- A list of rows is all well-formed, or has a first row that is not. -/
theorem exists_first_bad_row (rows : List (List JSONValue)) :
    (∀ r ∈ rows, WellFormedRow r) ∨
      ∃ pre bad post, rows = pre ++ bad :: post ∧ (∀ r ∈ pre, WellFormedRow r) ∧
        ¬ WellFormedRow bad := by
  induction rows with
  | nil => exact Or.inl (by simp)
  | cons one rest ih =>
    by_cases hw : WellFormedRow one
    · rcases ih with hall | ⟨pre, bad, post, hrows, hpre, hbad⟩
      · left
        intro r hr
        rcases List.mem_cons.mp hr with rfl | hr
        · exact hw
        · exact hall r hr
      · right
        refine ⟨one :: pre, bad, post, by simp [hrows], ?_, hbad⟩
        intro r hr
        rcases List.mem_cons.mp hr with rfl | hr
        · exact hw
        · exact hpre r hr
    · exact Or.inr ⟨[], one, rest, rfl, by simp, hw⟩

/-- The loop does not look at the transport. -/
theorem rowsLoop_clientGet (rt : Runtime)
    (get : Client → String → Except GoError Response) (rows : List (List JSONValue))
    (acc : List Record) :
    rowsLoop { rt with clientGet := get } rows acc = rowsLoop rt rows acc := by
  induction rows generalizing acc with
  | nil => simp [rowsLoop]
  | cons one rest ih => simp only [rowsLoop, float64ToInt, float64ToInt8, ih]

/-- The loop does not look at element 2 of a row. -/
theorem rowsLoop_agreeOffTwo (rt : Runtime) (rows1 rows2 : List (List JSONValue))
    (h : List.Forall₂ AgreeOffTwo rows1 rows2) (acc : List Record) :
    rowsLoop rt rows1 acc = rowsLoop rt rows2 acc := by
  induction h generalizing acc with
  | nil => rfl
  | cons hrow _ ih =>
    obtain ⟨hl, h0, h1, h3, h4, h5⟩ := hrow
    simp only [rowsLoop, hl, h0, h1, h3, h4, h5, ih]

/-! ## The claims, continued -/

/-- C11, as amended. In a 200 response whose earlier rows are all well-formed,
the message of a per-row validation failure is fixed by the failing check:
wrong arity gives the constant "record length wrong", which names neither a
field nor a value; a time field that is not a string gives "parsing time
wrong: " followed by the rendering of the value found; a duration, activity,
category or productivity field of the wrong type gives "parsing duration
wrong: ", "parsing activity wrong: ", "parsing category wrong: " or "parsing
productivity wrong: " followed by the Go type of the value found, not by the
value. -/
theorem GetRecords_row_error_messages (rt : Runtime) (day key : String) (resp : Response)
    (env : rtResponse) (pre post : List (List JSONValue)) (bad : List JSONValue)
    (hget : rt.clientGet newCli (Sprintf reqURL [day, day, key]) = .ok resp)
    (hstatus : resp.StatusCode = 200) (hdecode : resp.Body.decode = .ok env)
    (hrows : env.Rows = pre ++ bad :: post) (hpre : ∀ r ∈ pre, WellFormedRow r) :
    (bad.length ≠ 6 →
      GetRecords rt day key
        = .returned (specRecords rt pre) (some (.errorString "record length wrong"))) ∧
    (∀ v0 x1 x2 x3 x4 x5 : JSONValue, bad = [v0, x1, x2, x3, x4, x5] → (∀ s, v0 ≠ .str s) →
      GetRecords rt day key
        = .returned (specRecords rt pre)
            (some (.errorString ("parsing time wrong: " ++ rt.fmtV v0)))) ∧
    (∀ (s : String) (t : Time) (v1 x2 x3 x4 x5 : JSONValue),
      bad = [.str s, v1, x2, x3, x4, x5] → timeParse s = .ok t → (∀ f, v1 ≠ .num f) →
      GetRecords rt day key
        = .returned (specRecords rt pre)
            (some (.errorString ("parsing duration wrong: " ++ typeName v1)))) ∧
    (∀ (s : String) (t : Time) (d : Float64) (x2 v3 x4 x5 : JSONValue),
      bad = [.str s, .num d, x2, v3, x4, x5] → timeParse s = .ok t → (∀ a, v3 ≠ .str a) →
      GetRecords rt day key
        = .returned (specRecords rt pre)
            (some (.errorString ("parsing activity wrong: " ++ typeName v3)))) ∧
    (∀ (s : String) (t : Time) (d : Float64) (x2 : JSONValue) (a : String) (v4 x5 : JSONValue),
      bad = [.str s, .num d, x2, .str a, v4, x5] → timeParse s = .ok t → (∀ c, v4 ≠ .str c) →
      GetRecords rt day key
        = .returned (specRecords rt pre)
            (some (.errorString ("parsing category wrong: " ++ typeName v4)))) ∧
    (∀ (s : String) (t : Time) (d : Float64) (x2 : JSONValue) (a c : String) (v5 : JSONValue),
      bad = [.str s, .num d, x2, .str a, .str c, v5] → timeParse s = .ok t →
      (∀ f, v5 ≠ .num f) →
      GetRecords rt day key
        = .returned (specRecords rt pre)
            (some (.errorString ("parsing productivity wrong: " ++ typeName v5)))) := by
  have hrun := GetRecords_append rt day key resp env pre (bad :: post) hget hstatus hdecode
    hrows hpre
  rw [hrun]
  refine ⟨?_, ?_, ?_, ?_, ?_, ?_⟩
  · intro hlen
    simp [rowsLoop, hlen]
  · intro v0 x1 x2 x3 x4 x5 hb hv
    subst hb
    have h0 : assertString v0 = none := by
      cases v0 <;> simp [assertString]
      exact hv _ rfl
    simp [rowsLoop, h0]
  · intro s t v1 x2 x3 x4 x5 hb ht hv
    subst hb
    have h1 : assertFloat64 v1 = none := by
      cases v1 <;> simp [assertFloat64]
      exact hv _ rfl
    simp [rowsLoop, assertString, ht, h1]
  · intro s t d x2 v3 x4 x5 hb ht hv
    subst hb
    have h3 : assertString v3 = none := by
      cases v3 <;> simp [assertString]
      exact hv _ rfl
    simp [rowsLoop, assertString, assertFloat64, ht, h3]
  · intro s t d x2 a v4 x5 hb ht hv
    subst hb
    have h4 : assertString v4 = none := by
      cases v4 <;> simp [assertString]
      exact hv _ rfl
    simp [rowsLoop, assertString, assertFloat64, ht, h4]
  · intro s t d x2 a c v5 hb ht hv
    subst hb
    have h5 : assertFloat64 v5 = none := by
      cases v5 <;> simp [assertFloat64]
      exact hv _ rfl
    simp [rowsLoop, assertString, assertFloat64, ht, h5]

/-- C11, witness: after a good row, a row whose activity is a list. -/
theorem GetRecords_row_error_messages_witness :
    GetRecords (amd64 (.ok (okResponse ""
        [sampleRow, [.str "2023-05-01T10:05:00", .num (Float64.ofInt 300), .null,
          .arr [.str "Coding"], .str "b", .num (Float64.ofInt 2)]]))) "2023-05-01" "key"
      = .returned [sampleRecord]
          (some (.errorString "parsing activity wrong: []interface {}")) :=
  (GetRecords_row_error_messages _ "2023-05-01" "key" _ ⟨"null", "null", _⟩ [sampleRow] []
    [.str "2023-05-01T10:05:00", .num (Float64.ofInt 300), .null, .arr [.str "Coding"],
      .str "b", .num (Float64.ofInt 2)]
    rfl rfl rfl rfl
    (by
      intro r hr
      simp only [List.mem_singleton] at hr
      subst hr
      exact ⟨_, _, _, _, _, _, ⟨2023, 5, 1, 10, 0, 0, 0⟩, rfl, rfl⟩)).2.2.2.1
    "2023-05-01T10:05:00" ⟨2023, 5, 1, 10, 5, 0, 0⟩ (Float64.ofInt 300) .null
    (.arr [.str "Coding"]) (.str "b") (.num (Float64.ofInt 2)) rfl rfl (by intro a h; cases h)

/-- C11, counterexample to the claim as written. Two rows whose duration
fields hold different values, "300" and "five minutes", fail with the same
message, which names the type `string` and holds neither value; and rows of
zero and of seven elements fail with the same constant message, which names
no field and no value. -/
theorem GetRecords_error_hides_value :
    GetRecords (amd64 (.ok (okResponse "" [durationRow (.str "300")]))) "2023-05-01" "key"
      = .returned [] (some (.errorString "parsing duration wrong: string")) ∧
    GetRecords (amd64 (.ok (okResponse "" [durationRow (.str "five minutes")])))
        "2023-05-01" "key"
      = .returned [] (some (.errorString "parsing duration wrong: string")) ∧
    ¬ containsText "parsing duration wrong: string" "300" ∧
    ¬ containsText "parsing duration wrong: string" "five minutes" ∧
    GetRecords (amd64 (.ok (okResponse "" [[]]))) "2023-05-01" "key"
      = .returned [] (some (.errorString "record length wrong")) ∧
    GetRecords (amd64 (.ok (okResponse ""
        [[.null, .null, .null, .null, .null, .null, .null]]))) "2023-05-01" "key"
      = .returned [] (some (.errorString "record length wrong")) := by
  refine ⟨by rfl, by rfl, ?_, ?_, by rfl, by rfl⟩
  · rintro ⟨pre, post, h⟩
    have h2 : '3' ∈ "parsing duration wrong: string".data := by
      rw [h]
      simp
    revert h2
    decide
  · rintro ⟨pre, post, h⟩
    have h2 : 'f' ∈ "parsing duration wrong: string".data := by
      rw [h]
      simp
    revert h2
    decide

/-- C12. The client built by `newCli` has a dial timeout of 5 seconds, a TLS
handshake timeout of 5 seconds and an overall timeout of 10 seconds (a second
being 1000000000 nanoseconds), and it is the client of the GET of every call:
the outcome of `GetRecords` is the same for any transport that answers the
client with these timeouts as the given one does. -/
theorem newCli_timeouts (rt : Runtime) (day key : String) :
    newCli.DialTimeout = 5 * Second ∧ newCli.TLSHandshakeTimeout = 5 * Second ∧
    newCli.Timeout = 10 * Second ∧ Second = 1000000000 ∧
    newCli = ⟨5000000000, 5000000000, 10000000000⟩ ∧
    ∀ get : Client → String → Except GoError Response,
      (∀ url, get ⟨5000000000, 5000000000, 10000000000⟩ url
        = rt.clientGet ⟨5000000000, 5000000000, 10000000000⟩ url) →
      GetRecords { rt with clientGet := get } day key = GetRecords rt day key := by
  have hcli : newCli = ⟨5000000000, 5000000000, 10000000000⟩ := by decide
  refine ⟨by decide, by decide, by decide, rfl, hcli, ?_⟩
  intro get hget
  have h := hget (Sprintf reqURL [day, day, key])
  rw [← hcli] at h
  simp only [GetRecords, h, rowsLoop_clientGet]

/-- C13. For every 200 response that decodes to an envelope, `GetRecords`
returns a nil error if and only if every row is well-formed (exactly 6
elements, element 0 a string that parses in the layout, elements 1 and 5
numbers, elements 3 and 4 strings); an envelope without rows succeeds with no
records. -/
theorem GetRecords_nil_error_iff (rt : Runtime) (day key : String) (resp : Response)
    (env : rtResponse)
    (hget : rt.clientGet newCli (Sprintf reqURL [day, day, key]) = .ok resp)
    (hstatus : resp.StatusCode = 200) (hdecode : resp.Body.decode = .ok env) :
    ((∃ recs, GetRecords rt day key = .returned recs none) ↔
        ∀ r ∈ env.Rows, WellFormedRow r) ∧
      (env.Rows = [] → GetRecords rt day key = .returned [] none) := by
  have hrun := GetRecords_decoded rt day key resp env hget hstatus hdecode
  refine ⟨⟨?_, ?_⟩, ?_⟩
  · rintro ⟨recs, hrecs⟩
    rcases exists_first_bad_row env.Rows with hall | ⟨pre, bad, post, hrows, hpre, hbad⟩
    · exact hall
    · exfalso
      obtain ⟨e, he⟩ := rowsLoop_failing_row rt bad post (specRecords rt pre) hbad
      rw [GetRecords_append rt day key resp env pre (bad :: post) hget hstatus hdecode hrows
        hpre, he] at hrecs
      simp at hrecs
  · intro hall
    refine ⟨specRecords rt env.Rows, ?_⟩
    rw [GetRecords_append rt day key resp env env.Rows [] hget hstatus hdecode (by simp) hall]
    simp [rowsLoop]
  · intro hnil
    rw [hrun, hnil]
    simp [rowsLoop]

/-- C13, witness: an envelope without rows. -/
theorem GetRecords_nil_error_iff_witness :
    ((∃ recs, GetRecords (amd64 (.ok (okResponse "" []))) "2023-05-01" "key"
          = .returned recs none) ↔
        ∀ r ∈ ([] : List (List JSONValue)), WellFormedRow r) ∧
      (([] : List (List JSONValue)) = [] →
        GetRecords (amd64 (.ok (okResponse "" []))) "2023-05-01" "key" = .returned [] none) :=
  GetRecords_nil_error_iff (amd64 (.ok (okResponse "" []))) "2023-05-01" "key"
    (okResponse "" []) ⟨"null", "null", []⟩ rfl rfl rfl

/-- C14. `GetRecords` never panics: whatever the transport answers and
whatever the rows of the envelope hold, the call returns a pair of records and
error. The loop over the rows returns for rows of any length with elements of
any JSON type, so the out-of-range branch of each index expression is never
taken. -/
theorem GetRecords_never_panics (rt : Runtime) (day key : String) :
    (∃ recs err, GetRecords rt day key = .returned recs err) ∧
    (∀ msg, GetRecords rt day key ≠ .panicked msg) ∧
    ∀ (rows : List (List JSONValue)) (acc : List Record),
      (∃ recs err, rowsLoop rt rows acc = .returned recs err) ∧
        rowsLoop rt rows acc ≠ indexPanic := by
  have hloop : ∀ (rows : List (List JSONValue)) (acc : List Record),
      ∃ recs err, rowsLoop rt rows acc = .returned recs err := by
    intro rows acc
    obtain ⟨more, h⟩ := rowsLoop_returns rt rows acc
    exact ⟨_, _, h⟩
  have hret : ∃ recs err, GetRecords rt day key = .returned recs err := by
    cases hg : rt.clientGet newCli (Sprintf reqURL [day, day, key]) with
    | error e => exact ⟨[], some e, by simp [GetRecords, hg]⟩
    | ok resp =>
      by_cases hs : resp.StatusCode = 200
      · cases hd : resp.Body.decode with
        | error e => exact ⟨[], some e, by simp [GetRecords, hg, hs, hd]⟩
        | ok env =>
          obtain ⟨recs, err, h⟩ := hloop env.Rows []
          exact ⟨recs, err, by simp [GetRecords, hg, hs, hd, h]⟩
      · cases hr : resp.Body.readAll with
        | error e => exact ⟨[], some e, by simp [GetRecords, hg, hs, hr]⟩
        | ok b =>
          exact ⟨[], some (.errorString ("bad request, " ++ b)),
            by simp [GetRecords, hg, hs, hr]⟩
  refine ⟨hret, ?_, ?_⟩
  · intro msg h
    obtain ⟨recs, err, h2⟩ := hret
    rw [h2] at h
    cases h
  · intro rows acc
    refine ⟨hloop rows acc, ?_⟩
    intro h
    obtain ⟨recs, err, h2⟩ := hloop rows acc
    rw [h2] at h
    cases h

/-- The examples of the order of the checks: a 6-element row with a time that
is no string and a duration that is no number fails with the time error, and
a 5-element row with a bad time fails with "record length wrong". -/
theorem first_failing_check_examples :
    GetRecords (amd64 (.ok (okResponse ""
        [[.null, .str "300", .null, .str "a", .str "b", .num (Float64.ofInt 2)]])))
        "2023-05-01" "key"
      = .returned [] (some (.errorString "parsing time wrong: <nil>")) ∧
    GetRecords (amd64 (.ok (okResponse ""
        [[.null, .num (Float64.ofInt 300), .null, .str "a", .str "b"]]))) "2023-05-01" "key"
      = .returned [] (some (.errorString "record length wrong")) :=
  ⟨by rfl, by rfl⟩

/-- C15. The error `GetRecords` returns for a 200 response that decodes is that
of the first failing row in input order, and within that row that of the first
failing check in the fixed order: arity, element 0 is a string, element 0
parses as a time, element 1 is a number, element 3 is a string, element 4 is a
string, element 5 is a number; it is nil when no check of any row fails. -/
theorem GetRecords_first_error (rt : Runtime) (day key : String) (resp : Response)
    (env : rtResponse)
    (hget : rt.clientGet newCli (Sprintf reqURL [day, day, key]) = .ok resp)
    (hstatus : resp.StatusCode = 200) (hdecode : resp.Body.decode = .ok env) :
    ∃ recs, GetRecords rt day key = .returned recs (specFirstError rt env.Rows) := by
  obtain ⟨more, h⟩ := rowsLoop_returns rt env.Rows []
  exact ⟨[] ++ more, by rw [GetRecords_decoded rt day key resp env hget hstatus hdecode, h]⟩

/-- C15, witness: a good row, then a 6-element row whose time, duration and
productivity are all of the wrong type, then a row of five elements. -/
theorem GetRecords_first_error_witness :
    ∃ recs, GetRecords (amd64 (.ok (okResponse ""
        [sampleRow, [.null, .str "300", .null, .str "a", .str "b", .str "2"],
          [.null, .null, .null, .null, .null]]))) "2023-05-01" "key"
      = .returned recs (some (.errorString "parsing time wrong: <nil>")) :=
  GetRecords_first_error (amd64 (.ok (okResponse ""
        [sampleRow, [.null, .str "300", .null, .str "a", .str "b", .str "2"],
          [.null, .null, .null, .null, .null]]))) "2023-05-01" "key"
    (okResponse ""
        [sampleRow, [.null, .str "300", .null, .str "a", .str "b", .str "2"],
          [.null, .null, .null, .null, .null]])
    ⟨"null", "null", [sampleRow, [.null, .str "300", .null, .str "a", .str "b", .str "2"],
          [.null, .null, .null, .null, .null]]⟩ rfl rfl rfl

/-- C16. The result of `GetRecords` does not depend on element 2 of any row:
two 200 responses whose envelopes have the same number of rows, the same
length of each row and equal elements at the positions 0, 1, 3, 4 and 5 of
each row give the same records and the same error. -/
theorem GetRecords_ignores_element_two (rt : Runtime)
    (get1 get2 : Client → String → Except GoError Response) (day key : String)
    (resp1 resp2 : Response) (env1 env2 : rtResponse)
    (hget1 : get1 newCli (Sprintf reqURL [day, day, key]) = .ok resp1)
    (hget2 : get2 newCli (Sprintf reqURL [day, day, key]) = .ok resp2)
    (hstatus1 : resp1.StatusCode = 200) (hstatus2 : resp2.StatusCode = 200)
    (hdecode1 : resp1.Body.decode = .ok env1) (hdecode2 : resp2.Body.decode = .ok env2)
    (hagree : List.Forall₂ AgreeOffTwo env1.Rows env2.Rows) :
    GetRecords { rt with clientGet := get1 } day key
      = GetRecords { rt with clientGet := get2 } day key := by
  rw [GetRecords_decoded { rt with clientGet := get1 } day key resp1 env1 hget1 hstatus1
      hdecode1,
    GetRecords_decoded { rt with clientGet := get2 } day key resp2 env2 hget2 hstatus2
      hdecode2,
    rowsLoop_clientGet rt get1, rowsLoop_clientGet rt get2]
  exact rowsLoop_agreeOffTwo rt env1.Rows env2.Rows hagree []

/-- C16, witness: the sample row, and the same row with an object in place of
the text at position 2. -/
theorem GetRecords_ignores_element_two_witness :
    GetRecords { amd64 (.error (.external "unused")) with
        clientGet := fun _ _ => .ok (okResponse "" [sampleRow]) } "2023-05-01" "key"
      = GetRecords { amd64 (.error (.external "unused")) with
        clientGet := fun _ _ => .ok (okResponse ""
          [[.str "2023-05-01T10:00:00", .num (Float64.ofInt 300), .obj [("doc", .null)],
            .str "Coding", .str "Software Development", .num (Float64.ofInt 2)]]) }
        "2023-05-01" "key" :=
  GetRecords_ignores_element_two (amd64 (.error (.external "unused")))
    (fun _ _ => .ok (okResponse "" [sampleRow]))
    (fun _ _ => .ok (okResponse ""
      [[.str "2023-05-01T10:00:00", .num (Float64.ofInt 300), .obj [("doc", .null)],
        .str "Coding", .str "Software Development", .num (Float64.ofInt 2)]]))
    "2023-05-01" "key" _ _ ⟨"null", "null", _⟩ ⟨"null", "null", _⟩ rfl rfl rfl rfl rfl rfl
    (List.Forall₂.cons ⟨rfl, rfl, rfl, rfl, rfl, rfl⟩ List.Forall₂.nil)

/-- C17. In a 200 response, for every well-formed row reached by the loop (all
earlier rows well-formed) whose productivity value truncates toward zero to an
integer p with -128 <= p <= 127, the record of that row is returned at the
position of the row and its `Productivity` is p exactly; each of the scores
-2, -1, 0, 1, 2 is preserved by the conversion to a signed 8-bit integer. -/
theorem GetRecords_productivity_exact (rt : Runtime) (day key : String) (resp : Response)
    (env : rtResponse) (pre post : List (List JSONValue)) (s : String) (d : Float64)
    (x : JSONValue) (a c : String) (p : Float64) (t : Time)
    (hget : rt.clientGet newCli (Sprintf reqURL [day, day, key]) = .ok resp)
    (hstatus : resp.StatusCode = 200) (hdecode : resp.Body.decode = .ok env)
    (hrows : env.Rows = pre ++ [.str s, .num d, x, .str a, .str c, .num p] :: post)
    (hpre : ∀ r ∈ pre, WellFormedRow r) (ht : timeParse s = .ok t)
    (hlo : -128 ≤ p.trunc) (hhi : p.trunc ≤ 127) :
    (∃ recs err rc, GetRecords rt day key = .returned recs err ∧
        recs[pre.length]? = some rc ∧ rc.Productivity = p.trunc ∧ rc.Begin = t ∧
        rc.Spent = float64ToInt rt d ∧ rc.Activity = a ∧ rc.Category = c) ∧
      float64ToInt8 rt (Float64.ofInt (-2)) = -2 ∧ float64ToInt8 rt (Float64.ofInt (-1)) = -1 ∧
      float64ToInt8 rt (Float64.ofInt 0) = 0 ∧ float64ToInt8 rt (Float64.ofInt 1) = 1 ∧
      float64ToInt8 rt (Float64.ofInt 2) = 2 := by
  have hfit : ∀ f : Float64, fitsInt 8 f.trunc → float64ToInt8 rt f = f.trunc := by
    intro f hf
    simp [float64ToInt8, hf]
  refine ⟨?_, ?_, ?_, ?_, ?_, ?_⟩
  · have hp : fitsInt 8 p.trunc := by
      unfold fitsInt
      constructor
      · norm_num
        exact hlo
      · norm_num
        omega
    obtain ⟨more, hmore⟩ := rowsLoop_returns rt post
      (specRecords rt pre ++ [⟨t, float64ToInt rt d, a, c, float64ToInt8 rt p⟩])
    refine ⟨specRecords rt pre ++ [⟨t, float64ToInt rt d, a, c, float64ToInt8 rt p⟩] ++ more,
      specFirstError rt post, ⟨t, float64ToInt rt d, a, c, float64ToInt8 rt p⟩, ?_, ?_,
      hfit p hp, rfl, rfl, rfl, rfl⟩
    · rw [GetRecords_append rt day key resp env pre _ hget hstatus hdecode hrows hpre,
        rowsLoop_wellFormed_row rt post _ s d x a c p t ht, hmore]
    · have hlen := specRecords_length rt pre hpre
      rw [List.append_assoc, List.getElem?_append_right (by omega)]
      simp [hlen]
  · exact hfit _ (by decide)
  · exact hfit _ (by decide)
  · exact hfit _ (by decide)
  · exact hfit _ (by decide)
  · exact hfit _ (by decide)

/-- C17, witness: the sample row after a good row; its productivity is 2. -/
theorem GetRecords_productivity_exact_witness :
    (∃ recs err rc, GetRecords (amd64 (.ok (okResponse "" [sampleRow, sampleRow, []])))
          "2023-05-01" "key" = .returned recs err ∧
        recs[[sampleRow].length]? = some rc ∧ rc.Productivity = (Float64.ofInt 2).trunc ∧
        rc.Begin = ⟨2023, 5, 1, 10, 0, 0, 0⟩ ∧
        rc.Spent = float64ToInt (amd64 (.ok (okResponse "" [sampleRow, sampleRow, []])))
          (Float64.ofInt 300) ∧
        rc.Activity = "Coding" ∧ rc.Category = "Software Development") ∧
      float64ToInt8 (amd64 (.ok (okResponse "" [sampleRow, sampleRow, []])))
        (Float64.ofInt (-2)) = -2 ∧
      float64ToInt8 (amd64 (.ok (okResponse "" [sampleRow, sampleRow, []])))
        (Float64.ofInt (-1)) = -1 ∧
      float64ToInt8 (amd64 (.ok (okResponse "" [sampleRow, sampleRow, []])))
        (Float64.ofInt 0) = 0 ∧
      float64ToInt8 (amd64 (.ok (okResponse "" [sampleRow, sampleRow, []])))
        (Float64.ofInt 1) = 1 ∧
      float64ToInt8 (amd64 (.ok (okResponse "" [sampleRow, sampleRow, []])))
        (Float64.ofInt 2) = 2 :=
  GetRecords_productivity_exact (amd64 (.ok (okResponse "" [sampleRow, sampleRow, []])))
    "2023-05-01" "key" (okResponse "" [sampleRow, sampleRow, []])
    ⟨"null", "null", [sampleRow, sampleRow, []]⟩ [sampleRow] [[]] "2023-05-01T10:00:00"
    (Float64.ofInt 300) (.str "x") "Coding" "Software Development" (Float64.ofInt 2)
    ⟨2023, 5, 1, 10, 0, 0, 0⟩ rfl rfl rfl rfl
    (by
      intro r hr
      simp only [List.mem_singleton] at hr
      subst hr
      exact ⟨_, _, _, _, _, _, ⟨2023, 5, 1, 10, 0, 0, 0⟩, rfl, rfl⟩)
    rfl (by decide) (by decide)

end Rtexport
